import Mathlib

/-!
Shallow embedding of the bazaar_backend cart / order-placement flow.

This file embeds, in Lean, the cart/stock reservation and order-placement
subsystem of the repository (`src/controllers/cart.ts` and the checkout
controller's `placeMyOrder`), together with the document model it operates on
(`src/models/Product.ts`, `src/models/Cart.ts`, `src/models/Order.ts`).

Modelling conventions:
* Mongo object ids are `Nat`.
* JS numbers used as counts/amounts are `Int` (requests may carry negative
  numbers; overflow is immaterial at these magnitudes).
* A Mongo collection is a `List` of documents; `findOneAndUpdate` /
  `findOneAndDelete` act on the *first* document matching the filter
  (`updateFirst` / `removeFirst` below); `doc.save()` writes the document back
  over every stored document with the same id (ids are unique in a real
  store; well-formedness `DB.WF` records that).
* A controller is a function `DB → request → Except AppError result × DB`:
  a thrown `AppError` (or a rejected promise handed to the error middleware)
  is `.error`, a JSON success response is `.ok`, and the second component is
  the database after the call.
* Two database operations that the controllers treat as fallible — the cart
  upsert in `addItemInCart` and `Order.create` in `placeMyOrder` — take an
  explicit failure flag standing for the possibility that the store rejects
  the write; `false` is the normal path.
-/

/-- Product document: the fields of `src/models/Product.ts` that the
cart/order flow reads or writes (`_id`, `stock`, `price`, `selling_price`). -/
structure ProductDoc where
  pid : Nat
  price : Int
  selling_price : Option Int
  stock : Int
deriving DecidableEq, Repr

/-- The `selected_variants` payload (`color`/`size`/`custom` from the request
body); it is carried around but never inspected by the flow. -/
structure Variants where
  color : Option String
  size : Option String
  custom : Option String
deriving DecidableEq, Repr

/-- One entry of `cart.products` (`src/models/Cart.ts`): a product reference,
the selected variants, and a quantity. -/
structure LineItem where
  product : Nat
  selected_variants : Variants
  quantity : Int
deriving DecidableEq, Repr

/-- Cart document (`src/models/Cart.ts`): `_id`, `owner`, `products`. -/
structure CartDoc where
  cid : Nat
  owner : Nat
  products : List LineItem
deriving DecidableEq, Repr

/-- A user address; only the two default flags matter to `placeMyOrder`. -/
structure AddressDoc where
  default_billing_address : Bool
  default_shipping_address : Bool
deriving DecidableEq, Repr

/-- User document as `placeMyOrder` uses it: `_id` (checked for falsiness)
and the address book. -/
structure UserDoc where
  uid : Option Nat
  addresses : List AddressDoc
deriving DecidableEq, Repr

/-- Billing block of an order document. -/
structure BillingInfo where
  address : AddressDoc
  payment_method : String
  paid_amount : Int
deriving DecidableEq, Repr

/-- Shipping block of an order document. -/
structure ShippingInfo where
  address : AddressDoc
deriving DecidableEq, Repr

/-- Order document: the fields of `src/models/Order.ts` that `placeMyOrder`
fills in (timestamps omitted). -/
structure OrderDoc where
  billing : BillingInfo
  shipping : ShippingInfo
  customer : Nat
  delivery_status : String
  products : List LineItem
deriving DecidableEq, Repr

/-- An `AppError` (`src/error handling/AppError.ts`): message and HTTP code. -/
structure AppError where
  message : String
  statusCode : Nat
deriving DecidableEq, Repr

/-- The database state the flow touches: the `products`, `carts` and `orders`
collections, plus the id the store will assign to the next inserted cart. -/
structure DB where
  products : List ProductDoc
  carts : List CartDoc
  orders : List OrderDoc
  nextCid : Nat
deriving DecidableEq, Repr

/-- Mongo `findOneAndUpdate(filter, update, {new: true})` on a list-modelled
collection: update the first element satisfying `p` by `u`, returning the
updated document (or `none` when nothing matched) and the new collection. -/
def updateFirst {α : Type} (p : α → Bool) (u : α → α) : List α → Option α × List α
  | [] => (none, [])
  | a :: rest =>
    if p a then (some (u a), u a :: rest)
    else
      let r := updateFirst p u rest
      (r.1, a :: r.2)

/-- Mongo `findOneAndDelete(filter)`: remove the first element satisfying `p`,
returning the removed document (or `none`) and the remaining collection. -/
def removeFirst {α : Type} (p : α → Bool) : List α → Option α × List α
  | [] => (none, [])
  | a :: rest =>
    if p a then (some a, rest)
    else
      let r := removeFirst p rest
      (r.1, a :: r.2)

/-- Look a product up by id (used by `populate` / reference resolution). -/
def findProduct (products : List ProductDoc) (p : Nat) : Option ProductDoc :=
  products.find? (fun d => d.pid == p)

/-- The cart upsert both cart controllers perform:
`Cart.findOneAndUpdate({owner}, {owner}, {upsert: true, new: true})`.
When the user already has a cart the update rewrites `owner` with the same
value, so the stored document is unchanged; otherwise a new cart with the
schema-default empty `products` is inserted. -/
def upsertCart (db : DB) (owner : Nat) : CartDoc × DB :=
  match db.carts.find? (fun c => c.owner == owner) with
  | some c => (c, db)
  | none =>
    let c : CartDoc := ⟨db.nextCid, owner, []⟩
    (c, { db with carts := db.carts ++ [c], nextCid := db.nextCid + 1 })

/-- `cartDoc.save()`: write the (in-memory modified) cart back over the stored
document with its `_id`. -/
def saveCart (db : DB) (c : CartDoc) : DB :=
  { db with carts := db.carts.map (fun x => if x.cid == c.cid then c else x) }

/-- `productDoc.save()`: write the product back over the stored document with
its `_id` (used by the rollback in `addItemInCart`). -/
def saveProduct (db : DB) (d : ProductDoc) : DB :=
  { db with products := db.products.map (fun x => if x.pid == d.pid then d else x) }

/-- `DocCart.products[ind].quantity += q` at a given index. -/
def incQtyAt (l : List LineItem) (i : Nat) (q : Int) : List LineItem :=
  match l, i with
  | [], _ => []
  | li :: rest, 0 => { li with quantity := li.quantity + q } :: rest
  | li :: rest, n + 1 => li :: incQtyAt rest n q

/-- Filter of `addItemInCart` step 3: `{_id: productId, stock: {$gte: quantity}}`. -/
def stockFilter (productId : Nat) (quantity : Int) (d : ProductDoc) : Bool :=
  d.pid == productId && decide (quantity ≤ d.stock)

/-- Step 3 of `addItemInCart`: the atomic compare-and-decrement
`Product.findOneAndUpdate({_id, stock: {$gte: q}}, {$inc: {stock: -q}}, {new: true})`. -/
def reserveStock (products : List ProductDoc) (productId : Nat) (quantity : Int) :
    Option ProductDoc × List ProductDoc :=
  updateFirst (stockFilter productId quantity)
    (fun d => { d with stock := d.stock - quantity }) products

/-- Steps 7–8 of `addItemInCart`: `findIndex` of the product in the cart; when
found, `products[ind].quantity += quantity`, otherwise push a new line item. -/
def mergeOrPush (items : List LineItem) (productId : Nat) (v : Variants) (q : Int) :
    List LineItem :=
  match items.findIdx? (fun li => li.product == productId) with
  | some ind => incQtyAt items ind q
  | none => items ++ [⟨productId, v, q⟩]

/-- Request body/user context of `addItemInCart`: `req.user._id`,
`req.body.product` (possibly absent), `Number(req.body.quantity) * 1`, and the
variant selections. -/
structure AddItemReq where
  userId : Nat
  product : Option Nat
  quantity : Int
  variants : Variants
deriving DecidableEq, Repr

/-- The `addItemInCart` controller (`src/controllers/cart.ts`):
validate the product id; atomically decrement the product's stock under the
filter `{_id: product, stock: {$gte: quantity}}`; upsert the user's cart
(`upsertFails` injects the store rejecting that write, the controller's
`if (!DocCart)` branch); on upsert failure add the quantity back onto the
fetched product document and save it, then error; otherwise merge the
quantity into an existing line item for the product or push a new one, and
save the cart. -/
def addItemInCart (db : DB) (req : AddItemReq) (upsertFails : Bool) :
    Except AppError CartDoc × DB :=
  match req.product with
  | none => (.error ⟨"Must provide id of the product to add into the cart.", 400⟩, db)
  | some productId =>
    let quantity := req.quantity
    let r := reserveStock db.products productId quantity
    let db1 : DB := { db with products := r.2 }
    match r.1 with
    | none => (.error ⟨"No sufficient stock available.", 400⟩, db1)
    | some docProduct =>
      if upsertFails then
        let rolled : ProductDoc := { docProduct with stock := docProduct.stock + quantity }
        (.error ⟨"Failed to add item in cart, please try again.", 500⟩,
          saveProduct db1 rolled)
      else
        let rc := upsertCart db1 req.userId
        let docCart := rc.1
        let docCart1 : CartDoc :=
          { docCart with products := mergeOrPush docCart.products productId req.variants quantity }
        (.ok docCart1, saveCart rc.2 docCart1)

/-- The success path of `addItemInCart` (steps 5–9 after a successful stock
reservation), packaged as the produced cart document and final state;
`addItemInCart` on the normal path returns exactly this (proved below). -/
def addItemNormal (db : DB) (req : AddItemReq) (p : Nat) : CartDoc × DB :=
  let db1 : DB := { db with products := (reserveStock db.products p req.quantity).2 }
  let rc := upsertCart db1 req.userId
  let c1 : CartDoc := { rc.1 with products := mergeOrPush rc.1.products p req.variants req.quantity }
  (c1, saveCart rc.2 c1)

/-- Request of `removeItemFromCart`; `quantity` is `none` when absent from the
body (JS also treats a present `0` as falsy, handled at the use site). -/
structure RemoveItemReq where
  userId : Nat
  product : Option Nat
  quantity : Option Int
  variants : Variants
deriving DecidableEq, Repr

/-- Steps 4–5 of `removeItemFromCart` on the cart's line-item list:
`findIndex` of the first entry for the product, then at that index either
error when less is held than requested, splice the entry out when the
quantities are equal, or decrement it. `.ok none` is the `ind === -1` case
(entry absent: the cart is left untouched and not saved). -/
def stepRemoveFromCart : List LineItem → Nat → Int → Except AppError (Option (List LineItem))
  | [], _, _ => .ok none
  | li :: rest, p, q =>
    if li.product == p then
      if li.quantity < q then
        .error ⟨"Please provide quantity equal or less to the amount of products in cart.", 400⟩
      else if li.quantity == q then .ok (some rest)
      else .ok (some ({ li with quantity := li.quantity - q } :: rest))
    else
      match stepRemoveFromCart rest p q with
      | .error e => .error e
      | .ok none => .ok none
      | .ok (some rest') => .ok (some (li :: rest'))

/-- JS array indexing `arr[i]` with a possibly negative index: `undefined`
(here `none`) when out of range. -/
def jsGet {α : Type} (l : List α) (i : Int) : Option α :=
  if i < 0 then none else l.get? i.toNat

/-- The `removeItemFromCart` controller (`src/controllers/cart.ts`):
validate product and quantity (a missing — or falsy `0` — quantity errors);
upsert the user's cart; run the index-based removal of steps 4–5; then
unconditionally increment the product's stock with
`{_id: product}, {$inc: {stock: +quantity}}`. When no product document
matched, step 7 re-reads `DocCart.products[ind]` with the *original* index
against the *modified* array: it either increments whatever entry now sits at
that index, pushes a fresh entry, or crashes on `undefined.product`. -/
def removeItemFromCart (db : DB) (req : RemoveItemReq) :
    Except AppError CartDoc × DB :=
  match req.product with
  | none => (.error ⟨"Must provide id of the product to be remove from the cart.", 400⟩, db)
  | some productId =>
    match req.quantity with
    | none => (.error ⟨"Must provide the quantity of the product to be remove from the cart.", 400⟩, db)
    | some q =>
      if q == 0 then
        (.error ⟨"Must provide the quantity of the product to be remove from the cart.", 400⟩, db)
      else
        let quantity := q
        let rc := upsertCart db req.userId
        let docCart := rc.1
        let db1 := rc.2
        match stepRemoveFromCart docCart.products productId quantity with
        | .error e => (.error e, db1)
        | .ok items? =>
          let docCart1 : CartDoc :=
            match items? with
            | some l => { docCart with products := l }
            | none => docCart
          let db2 := match items? with
            | some _ => saveCart db1 docCart1
            | none => db1
          let r := updateFirst (fun d => d.pid == productId)
            (fun d => { d with stock := d.stock + quantity }) db2.products
          let db3 : DB := { db2 with products := r.2 }
          match r.1 with
          | some _ => (.ok docCart1, db3)
          | none =>
            let ind : Int :=
              match docCart.products.findIdx? (fun li => li.product == productId) with
              | some i => (i : Int)
              | none => -1
            match jsGet docCart1.products ind with
            | none =>
              (.error ⟨"TypeError: cannot read properties of undefined", 500⟩, db3)
            | some li =>
              if li.product == productId then
                let c2 : CartDoc :=
                  { docCart1 with products := incQtyAt docCart1.products ind.toNat quantity }
                (.error ⟨"Failed to remove item from the cart. Please try again.", 500⟩,
                  saveCart db3 c2)
              else
                let c2 : CartDoc :=
                  { docCart1 with
                    products := docCart1.products ++ [⟨productId, req.variants, quantity⟩] }
                (.error ⟨"Failed to remove item from the cart. Please try again.", 500⟩,
                  saveCart db3 c2)

/-- MongoDB `findOneAndUpdate` exactly as `deleteCart` issues it, with raw
keys: a filter on the field named `filterField` compared against an id, and an
update document `{opName: {field: amount}}`. A filter on a field no product
document has matches nothing, and the server rejects an update document whose
top-level key is not a recognised update operator before touching any
document (the repo only ever uses `$inc` on `stock`). -/
def rawProductUpdate (products : List ProductDoc) (filterField : String) (filterId : Nat)
    (opName : String) (field : String) (amount : Int) :
    Except String (Option ProductDoc × List ProductDoc) :=
  if opName == "$inc" then
    if field == "stock" then
      .ok (updateFirst
        (fun d => filterField == "_id" && d.pid == filterId)
        (fun d => { d with stock := d.stock + amount }) products)
    else
      .ok (updateFirst (fun d => filterField == "_id" && d.pid == filterId) id products)
  else
    .error ("Unknown modifier: " ++ opName)

/-- Step 4 of `deleteCart`, applied to each line item of the deleted cart:
`Product.findOneAndUpdate({_id4: prodId}, {$in4c: {stock: +quantity}}, ...)`
— with the literal misspelled keys of the source. The first rejected update
rejects the whole `Promise.all`. -/
def reclaimStock : List ProductDoc → List LineItem → Except String (List ProductDoc)
  | products, [] => .ok products
  | products, li :: rest =>
    match rawProductUpdate products "_id4" li.product "$in4c" "stock" li.quantity with
    | .error e => .error e
    | .ok r => reclaimStock r.2 rest

/-- The `deleteCart` controller (`src/controllers/cart.ts`): delete the cart
by id (404 when absent), then run the stock-reclaim updates over its line
items; a 204 is sent only when every update resolves, and a rejection goes to
`next(err)`. -/
def deleteCart (db : DB) (id : Nat) : Except AppError Unit × DB :=
  let r := removeFirst (fun c => c.cid == id) db.carts
  match r.1 with
  | none => (.error ⟨"No cart document found to delete with the id provided.", 404⟩, db)
  | some docCart =>
    let db1 : DB := { db with carts := r.2 }
    match reclaimStock db1.products docCart.products with
    | .ok products1 => (.ok (), { db1 with products := products1 })
    | .error e => (.error ⟨e, 500⟩, db1)

/-- Per-line-item amount in `placeMyOrder` step 7: a line item whose product
reference does not resolve fails the `instanceof Product` narrowing and
contributes nothing; otherwise
`(product.selling_price ? product.selling_price : product.price) * quantity`
— note that a `selling_price` of `0` is falsy in JS, so it falls back to
`price`. -/
def lineTotal (products : List ProductDoc) (li : LineItem) : Int :=
  match findProduct products li.product with
  | none => 0
  | some p =>
    (match p.selling_price with
     | some sp => if sp == 0 then p.price else sp
     | none => p.price) * li.quantity

/-- The `reduce` of `placeMyOrder` step 7. -/
def totalAmount (products : List ProductDoc) (items : List LineItem) : Int :=
  items.foldl (fun prev li => prev + lineTotal products li) 0

/-- Payment status argument of `placeMyOrder`. -/
inductive CheckoutStatus where
  | cashOnDelivery
  | stripeCheckout
deriving DecidableEq, Repr

/-- Step 8 of `placeMyOrder`: the `orderObject` built from the cart, the two
default addresses and the payment status. -/
def orderObject (db : DB) (cart : CartDoc) (uid : Nat) (billing shipping : AddressDoc)
    (status : CheckoutStatus) : OrderDoc :=
  { billing :=
      { address := billing
        payment_method :=
          match status with
          | .cashOnDelivery => "cash_on_delivery"
          | .stripeCheckout => "card"
        paid_amount := totalAmount db.products cart.products }
    shipping := { address := shipping }
    customer := uid
    delivery_status :=
      match status with
      | .cashOnDelivery => "pending_payment"
      | .stripeCheckout => "processing"
    products := cart.products }

/-- The `placeMyOrder` helper of the checkout controller: require a logged-in
user; find the user's cart and fail on an empty (or missing) one; require
both default addresses; compute the total and build the `orderObject`; create
the order (`createFails` injects the store rejecting the insert, the
controller's `if (!DocOrder)` branch, which leaves everything unchanged);
then empty the cart and save it. -/
def placeMyOrder (db : DB) (user : UserDoc) (status : CheckoutStatus) (createFails : Bool) :
    Except AppError OrderDoc × DB :=
  match user.uid with
  | none => (.error ⟨"You must be logged in to access this route. Please login first.", 401⟩, db)
  | some uid =>
    match db.carts.find? (fun c => c.owner == uid) with
    | none =>
      (.error ⟨"Your cart is empty. Add some products in cart before placing an order.", 400⟩, db)
    | some cart =>
      if cart.products.isEmpty then
        (.error ⟨"Your cart is empty. Add some products in cart before placing an order.", 400⟩, db)
      else
        match user.addresses.find? (fun a => a.default_billing_address),
              user.addresses.find? (fun a => a.default_shipping_address) with
        | some billing, some shipping =>
          let order := orderObject db cart uid billing shipping status
          if createFails then
            (.error ⟨"Failed to place an order for some reason, please try again.", 500⟩, db)
          else
            let db1 : DB := { db with orders := db.orders ++ [order] }
            let cart1 : CartDoc := { cart with products := [] }
            (.ok order, saveCart db1 cart1)
        | _, _ =>
          (.error
            ⟨"Please set a default shipping and billing address first before proceeding with checkout.", 400⟩,
            db)

/-- Stated from the words of claim C4, for comparison with the code: the sum
over the cart's line items of "(the product's selling_price when set,
otherwise its price) multiplied by the line item's quantity"; a line item
whose product reference resolves to no document contributes nothing. -/
def claimedTotal (products : List ProductDoc) (items : List LineItem) : Int :=
  (items.map (fun li =>
    match findProduct products li.product with
    | none => 0
    | some pdoc =>
      (match pdoc.selling_price with
       | some sp => sp
       | none => pdoc.price) * li.quantity)).sum

/-- The amended C4 total: the product's selling_price when set *and nonzero*
(a zero selling_price is falsy in JS and falls back to `price`), otherwise
its price, multiplied by the quantity and summed over the line items. -/
def amendedTotal (products : List ProductDoc) (items : List LineItem) : Int :=
  (items.map (fun li =>
    match findProduct products li.product with
    | none => 0
    | some pdoc =>
      (match pdoc.selling_price with
       | some sp => if sp == 0 then pdoc.price else sp
       | none => pdoc.price) * li.quantity)).sum

/-- Well-formedness of a database state, as the real store guarantees it:
document ids are unique in each collection, and the next cart id is fresh. -/
def DB.WF (db : DB) : Prop :=
  (db.products.map (fun d => d.pid)).Nodup ∧
  (db.carts.map (fun c => c.cid)).Nodup ∧
  ∀ c ∈ db.carts, c.cid < db.nextCid

instance (db : DB) : Decidable db.WF := by
  unfold DB.WF
  infer_instance

/-- Stock of product `p`, defaulting to `0` when no such product is stored. -/
def stockD (db : DB) (p : Nat) : Int :=
  match findProduct db.products p with
  | none => 0
  | some d => d.stock

/-- The requesting user's cart: the document the controllers' query
`{owner: userId}` resolves to. -/
def cartOf (db : DB) (u : Nat) : Option CartDoc :=
  db.carts.find? (fun c => c.owner == u)

/-- Quantity of the first line item for product `p` in a line-item list (the
entry `findIndex` locates); `0` when there is none. -/
def itemQty (items : List LineItem) (p : Nat) : Int :=
  match items.find? (fun li => li.product == p) with
  | none => 0
  | some li => li.quantity

/-- Total quantity reserved for product `p` across a line-item list. -/
def itemsReserved (items : List LineItem) (p : Nat) : Int :=
  ((items.filter (fun li => li.product == p)).map (fun li => li.quantity)).sum

/-- Quantity of the line item `findIndex` locates for product `p` in user
`u`'s cart; `0` when there is no such cart or entry. -/
def cartQty (db : DB) (u : Nat) (p : Nat) : Int :=
  match cartOf db u with
  | none => 0
  | some c => itemQty c.products p

/-- Total quantity reserved for product `p` across user `u`'s cart. -/
def reservedQty (db : DB) (u : Nat) (p : Nat) : Int :=
  match cartOf db u with
  | none => 0
  | some c => itemsReserved c.products p

/-! ## Lemmas about the collection primitives -/

theorem updateFirst_fst_eq_none {α : Type} {p : α → Bool} {u : α → α} {l : List α} :
    (updateFirst p u l).1 = none ↔ ∀ a ∈ l, p a = false := by
  induction l with
  | nil => simp [updateFirst]
  | cons a rest ih =>
    by_cases h : p a
    · simp [updateFirst, h]
    · simp [updateFirst, h, ih]

theorem updateFirst_snd_of_fst_none {α : Type} {p : α → Bool} {u : α → α} {l : List α}
    (h : (updateFirst p u l).1 = none) : (updateFirst p u l).2 = l := by
  induction l with
  | nil => rfl
  | cons a rest ih =>
    by_cases hp : p a
    · simp [updateFirst, hp] at h
    · simp only [updateFirst, hp, if_false, Bool.false_eq_true] at h ⊢
      simp only [ih h]

theorem updateFirst_fst_some {α : Type} {p : α → Bool} {u : α → α} {l : List α} {b : α}
    (h : (updateFirst p u l).1 = some b) :
    ∃ l₁ a l₂, l = l₁ ++ a :: l₂ ∧ (∀ x ∈ l₁, p x = false) ∧ p a = true ∧ b = u a ∧
      (updateFirst p u l).2 = l₁ ++ u a :: l₂ := by
  induction l with
  | nil => simp [updateFirst] at h
  | cons a rest ih =>
    by_cases hp : p a
    · refine ⟨[], a, rest, rfl, by simp, hp, ?_, by simp [updateFirst, hp]⟩
      simp [updateFirst, hp] at h
      exact h.symm
    · simp only [updateFirst, hp, if_false, Bool.false_eq_true] at h ⊢
      obtain ⟨l₁, x, l₂, hl, h1, hx, hb, hsnd⟩ := ih h
      refine ⟨a :: l₁, x, l₂, by rw [hl]; rfl, ?_, hx, hb, ?_⟩
      · intro y hy
        rcases List.mem_cons.mp hy with hy | hy
        · subst hy; simpa using hp
        · exact h1 y hy
      · simp [hsnd]

theorem mem_updateFirst_snd {α : Type} {p : α → Bool} {u : α → α} {l : List α} {x : α}
    (hx : x ∈ (updateFirst p u l).2) :
    x ∈ l ∨ ∃ a, a ∈ l ∧ p a = true ∧ x = u a := by
  induction l with
  | nil => simp [updateFirst] at hx
  | cons a rest ih =>
    by_cases hp : p a
    · simp only [updateFirst, hp, if_true] at hx
      rcases List.mem_cons.mp hx with hx | hx
      · exact .inr ⟨a, List.mem_cons_self a rest, hp, hx⟩
      · exact .inl (List.mem_cons_of_mem a hx)
    · simp only [updateFirst, hp, if_false, Bool.false_eq_true] at hx
      rcases List.mem_cons.mp hx with hx | hx
      · exact .inl (by simp [hx])
      · rcases ih hx with h | ⟨b, hb, hpb, hxb⟩
        · exact .inl (List.mem_cons_of_mem a h)
        · exact .inr ⟨b, List.mem_cons_of_mem a hb, hpb, hxb⟩

theorem updateFirst_fst_of_find? {α : Type} {p : α → Bool} {u : α → α} {l : List α} {a : α}
    (h : l.find? p = some a) : (updateFirst p u l).1 = some (u a) := by
  induction l with
  | nil => simp at h
  | cons b rest ih =>
    by_cases hp : p b
    · rw [List.find?_cons_of_pos _ hp] at h
      injection h with h
      subst h
      simp [updateFirst, hp]
    · rw [List.find?_cons_of_neg _ hp] at h
      simp only [updateFirst, hp, if_false, Bool.false_eq_true]
      exact ih h

theorem removeFirst_fst_some {α : Type} {p : α → Bool} {l : List α} {b : α}
    (h : (removeFirst p l).1 = some b) :
    ∃ l₁ l₂, l = l₁ ++ b :: l₂ ∧ (∀ x ∈ l₁, p x = false) ∧ p b = true ∧
      (removeFirst p l).2 = l₁ ++ l₂ := by
  induction l with
  | nil => simp [removeFirst] at h
  | cons a rest ih =>
    by_cases hp : p a
    · simp only [removeFirst, hp, if_true] at h ⊢
      injection h with h
      subst h
      exact ⟨[], rest, rfl, by simp, hp, rfl⟩
    · simp only [removeFirst, hp, if_false, Bool.false_eq_true] at h ⊢
      obtain ⟨l₁, l₂, hl, h1, hb, hsnd⟩ := ih h
      refine ⟨a :: l₁, l₂, by rw [hl]; rfl, ?_, hb, by simp [hsnd]⟩
      intro y hy
      rcases List.mem_cons.mp hy with hy | hy
      · subst hy; simpa using hp
      · exact h1 y hy

theorem map_eq_self_of_forall {α : Type} {f : α → α} {l : List α}
    (h : ∀ x ∈ l, f x = x) : l.map f = l := by
  induction l with
  | nil => rfl
  | cons a rest ih =>
    simp [h a (List.mem_cons_self a rest), ih (fun x hx => h x (List.mem_cons_of_mem a hx))]

theorem key_ne_of_nodup_middle {α β : Type} {k : α → β} {l₁ l₂ : List α} {a : α}
    (h : ((l₁ ++ a :: l₂).map k).Nodup) :
    (∀ x ∈ l₁, k x ≠ k a) ∧ ∀ x ∈ l₂, k x ≠ k a := by
  rw [List.map_append, List.map_cons, List.nodup_append] at h
  obtain ⟨h1, h2, h3⟩ := h
  constructor
  · intro x hx heq
    exact h3 (List.mem_map_of_mem k hx) (by simp [heq])
  · intro x hx heq
    rw [List.nodup_cons] at h2
    exact h2.1 (by rw [← heq]; exact List.mem_map_of_mem k hx)

/-! ## Lemmas about line-item operations -/

theorem find?_item_cons_pos {a : LineItem} {l : List LineItem} {p : Nat}
    (h : (a.product == p) = true) :
    (a :: l).find? (fun li => li.product == p) = some a :=
  List.find?_cons_of_pos l h

theorem find?_item_cons_neg {a : LineItem} {l : List LineItem} {p : Nat}
    (h : (a.product == p) = false) :
    (a :: l).find? (fun li => li.product == p) = l.find? (fun li => li.product == p) :=
  List.find?_cons_of_neg l (by simp [h])

theorem itemQty_cons_pos {a : LineItem} {l : List LineItem} {p : Nat}
    (h : (a.product == p) = true) :
    itemQty (a :: l) p = a.quantity := by
  simp [itemQty, find?_item_cons_pos h]

theorem itemQty_cons_neg {a : LineItem} {l : List LineItem} {p : Nat}
    (h : (a.product == p) = false) :
    itemQty (a :: l) p = itemQty l p := by
  simp [itemQty, find?_item_cons_neg h]

theorem itemsReserved_cons_pos {a : LineItem} {l : List LineItem} {p : Nat}
    (h : (a.product == p) = true) :
    itemsReserved (a :: l) p = a.quantity + itemsReserved l p := by
  simp [itemsReserved, List.filter_cons, h]

theorem itemsReserved_cons_neg {a : LineItem} {l : List LineItem} {p : Nat}
    (h : (a.product == p) = false) :
    itemsReserved (a :: l) p = itemsReserved l p := by
  simp [itemsReserved, List.filter_cons, h]

theorem findIdx?_item_cons_pos {a : LineItem} {l : List LineItem} {p : Nat}
    (h : (a.product == p) = true) :
    (a :: l).findIdx? (fun li => li.product == p) = some 0 := by
  rw [List.findIdx?_cons]
  simp [h]

theorem findIdx?_item_cons_neg {a : LineItem} {l : List LineItem} {p : Nat}
    (h : (a.product == p) = false) :
    (a :: l).findIdx? (fun li => li.product == p) =
      (l.findIdx? (fun li => li.product == p)).map (fun i => i + 1) := by
  rw [List.findIdx?_cons, h]
  simp only [Bool.false_eq_true, if_false]
  show List.findIdx? _ l (0 + 1) = _
  rw [List.findIdx?_succ]

theorem length_incQtyAt (l : List LineItem) (i : Nat) (q : Int) :
    (incQtyAt l i q).length = l.length := by
  induction l generalizing i with
  | nil => rfl
  | cons a rest ih =>
    cases i with
    | zero => rfl
    | succ n => simp [incQtyAt, ih]

theorem keys_incQtyAt (l : List LineItem) (i : Nat) (q : Int) :
    (incQtyAt l i q).map (fun li => li.product) = l.map (fun li => li.product) := by
  induction l generalizing i with
  | nil => rfl
  | cons a rest ih =>
    cases i with
    | zero => rfl
    | succ n => simp only [incQtyAt, List.map_cons, ih]

theorem itemQty_incQtyAt {l : List LineItem} {p : Nat} {i : Nat} (q : Int)
    (h : l.findIdx? (fun li => li.product == p) = some i) :
    itemQty (incQtyAt l i q) p = itemQty l p + q := by
  induction l generalizing i with
  | nil => simp [List.findIdx?_nil] at h
  | cons a rest ih =>
    by_cases hp : (a.product == p) = true
    · rw [findIdx?_item_cons_pos hp] at h
      injection h with h
      subst h
      have hp2 :
          (({ a with quantity := a.quantity + q } : LineItem).product == p) = true := hp
      simp only [incQtyAt]
      rw [itemQty_cons_pos hp2, itemQty_cons_pos hp]
    · have hpf : (a.product == p) = false := by simpa using hp
      rw [findIdx?_item_cons_neg hpf] at h
      rcases Option.map_eq_some'.mp h with ⟨j, hj, hij⟩
      subst hij
      simp only [incQtyAt]
      have hpf2 : (a.product == p) = false := hpf
      rw [itemQty_cons_neg hpf2, itemQty_cons_neg hpf, ih hj]

theorem itemsReserved_incQtyAt {l : List LineItem} {p : Nat} {i : Nat} (q : Int)
    (h : l.findIdx? (fun li => li.product == p) = some i) :
    itemsReserved (incQtyAt l i q) p = itemsReserved l p + q := by
  induction l generalizing i with
  | nil => simp [List.findIdx?_nil] at h
  | cons a rest ih =>
    by_cases hp : (a.product == p) = true
    · rw [findIdx?_item_cons_pos hp] at h
      injection h with h
      subst h
      have hp2 :
          (({ a with quantity := a.quantity + q } : LineItem).product == p) = true := hp
      simp only [incQtyAt]
      rw [itemsReserved_cons_pos hp2, itemsReserved_cons_pos hp]
      ring
    · have hpf : (a.product == p) = false := by simpa using hp
      rw [findIdx?_item_cons_neg hpf] at h
      rcases Option.map_eq_some'.mp h with ⟨j, hj, hij⟩
      subst hij
      simp only [incQtyAt]
      rw [itemsReserved_cons_neg hpf, itemsReserved_cons_neg hpf, ih hj]

theorem itemQty_mergeOrPush (items : List LineItem) (p : Nat) (v : Variants) (q : Int) :
    itemQty (mergeOrPush items p v q) p = itemQty items p + q := by
  unfold mergeOrPush
  cases h : items.findIdx? (fun li => li.product == p) with
  | some i => exact itemQty_incQtyAt q h
  | none =>
    have hnone : items.find? (fun li => li.product == p) = none := by
      rw [List.find?_eq_none]
      intro x hx
      simp [List.findIdx?_eq_none_iff.mp h x hx]
    have hpos : ((⟨p, v, q⟩ : LineItem).product == p) = true := by simp
    simp [itemQty, List.find?_append, hnone, List.find?_cons_of_pos _ hpos]

theorem itemsReserved_mergeOrPush (items : List LineItem) (p : Nat) (v : Variants) (q : Int) :
    itemsReserved (mergeOrPush items p v q) p = itemsReserved items p + q := by
  unfold mergeOrPush
  cases h : items.findIdx? (fun li => li.product == p) with
  | some i => exact itemsReserved_incQtyAt q h
  | none =>
    have hpos : ((⟨p, v, q⟩ : LineItem).product == p) = true := by simp
    simp [itemsReserved, List.filter_append, List.filter_cons, hpos]

theorem keys_mergeOrPush_nodup {items : List LineItem} {p : Nat} {v : Variants} {q : Int}
    (h : (items.map (fun li => li.product)).Nodup) :
    ((mergeOrPush items p v q).map (fun li => li.product)).Nodup := by
  unfold mergeOrPush
  cases hidx : items.findIdx? (fun li => li.product == p) with
  | some i => rw [keys_incQtyAt]; exact h
  | none =>
    rw [List.map_append, List.nodup_append]
    refine ⟨h, by simp, ?_⟩
    intro x hx hx2
    simp only [List.map_cons, List.map_nil, List.mem_singleton] at hx2
    subst hx2
    obtain ⟨li, hli, hlip⟩ := List.mem_map.mp hx
    have := List.findIdx?_eq_none_iff.mp hidx li hli
    simp [hlip] at this

theorem mergeOrPush_of_findIdx {items : List LineItem} {p : Nat} {i : Nat} (v : Variants) (q : Int)
    (h : items.findIdx? (fun li => li.product == p) = some i) :
    mergeOrPush items p v q = incQtyAt items i q := by
  unfold mergeOrPush
  rw [h]

/-! ## Lemmas about the product and cart stores -/

theorem findProduct_middle {l₁ l₂ : List ProductDoc} {a : ProductDoc} {p : Nat}
    (ha : (a.pid == p) = true) (h1 : ∀ x ∈ l₁, x.pid ≠ p) :
    findProduct (l₁ ++ a :: l₂) p = some a := by
  unfold findProduct
  rw [List.find?_append]
  have hn : l₁.find? (fun d => d.pid == p) = none := by
    rw [List.find?_eq_none]
    intro x hx
    simpa using h1 x hx
  have h2 : (a :: l₂).find? (fun d => d.pid == p) = some a := List.find?_cons_of_pos _ ha
  rw [hn, h2]
  rfl

theorem upsertCart_found {db : DB} {o : Nat} {c : CartDoc} (h : cartOf db o = some c) :
    upsertCart db o = (c, db) := by
  unfold upsertCart
  unfold cartOf at h
  rw [h]

theorem upsertCart_missing {db : DB} {o : Nat} (h : cartOf db o = none) :
    upsertCart db o =
      (⟨db.nextCid, o, []⟩,
        { db with carts := db.carts ++ [⟨db.nextCid, o, []⟩], nextCid := db.nextCid + 1 }) := by
  unfold upsertCart
  unfold cartOf at h
  rw [h]

theorem upsertCart_products (db : DB) (o : Nat) :
    (upsertCart db o).2.products = db.products := by
  unfold upsertCart
  cases h : db.carts.find? (fun c => c.owner == o) <;> rfl

theorem upsertCart_orders (db : DB) (o : Nat) :
    (upsertCart db o).2.orders = db.orders := by
  unfold upsertCart
  cases h : db.carts.find? (fun c => c.owner == o) <;> rfl

theorem saveCart_products (db : DB) (c : CartDoc) :
    (saveCart db c).products = db.products := rfl

theorem saveCart_orders (db : DB) (c : CartDoc) :
    (saveCart db c).orders = db.orders := rfl

theorem find?_save_of_first {l : List CartDoc} {u : Nat} {c c' : CartDoc}
    (hnd : (l.map (fun x => x.cid)).Nodup)
    (hc : l.find? (fun x => x.owner == u) = some c)
    (hcid : c'.cid = c.cid) (howner : c'.owner = u) :
    (l.map (fun x => if x.cid == c'.cid then c' else x)).find? (fun x => x.owner == u) =
      some c' := by
  induction l with
  | nil => simp at hc
  | cons a rest ih =>
    by_cases ho : (a.owner == u) = true
    · have h2 : (a :: rest).find? (fun x => x.owner == u) = some a :=
        List.find?_cons_of_pos _ ho
      rw [h2] at hc
      injection hc with hc
      subst hc
      have hacid : (a.cid == c'.cid) = true := by simp [hcid]
      simp only [List.map_cons, hacid, if_true]
      exact List.find?_cons_of_pos _ (by simp [howner])
    · have h2 : (a :: rest).find? (fun x => x.owner == u) =
          rest.find? (fun x => x.owner == u) :=
        List.find?_cons_of_neg _ ho
      rw [h2] at hc
      have hcm : c ∈ rest := List.mem_of_find?_eq_some hc
      rw [List.map_cons, List.nodup_cons] at hnd
      have hane : (a.cid == c'.cid) = false := by
        rw [hcid]
        by_contra hf
        have heq : a.cid = c.cid := by
          have := Bool.not_eq_false _ |>.mp hf
          simpa using this
        exact hnd.1 (heq ▸ List.mem_map_of_mem (fun x => x.cid) hcm)
      simp only [List.map_cons, hane, Bool.false_eq_true, if_false]
      have h4 : (a :: rest.map (fun x => if x.cid == c'.cid then c' else x)).find?
            (fun x => x.owner == u) =
          (rest.map (fun x => if x.cid == c'.cid then c' else x)).find?
            (fun x => x.owner == u) :=
        List.find?_cons_of_neg _ ho
      exact h4.trans (ih hnd.2 hc)

theorem find?_append_right_single {l : List CartDoc} {u : Nat} {cnew : CartDoc}
    (h : l.find? (fun x => x.owner == u) = none) (ho : cnew.owner = u) :
    (l ++ [cnew]).find? (fun x => x.owner == u) = some cnew := by
  have h2 : [cnew].find? (fun x => x.owner == u) = some cnew :=
    List.find?_cons_of_pos _ (by simp [ho])
  rw [List.find?_append, h, h2]
  rfl

theorem nodup_cid_append_fresh {l : List CartDoc} {cnew : CartDoc}
    (hnd : (l.map (fun x => x.cid)).Nodup) (hf : ∀ x ∈ l, x.cid ≠ cnew.cid) :
    ((l ++ [cnew]).map (fun x => x.cid)).Nodup := by
  rw [List.map_append, List.nodup_append]
  refine ⟨hnd, by simp, ?_⟩
  intro y hy hy2
  simp only [List.map_cons, List.map_nil, List.mem_singleton] at hy2
  subst hy2
  obtain ⟨x, hx, hxc⟩ := List.mem_map.mp hy
  exact hf x hx hxc

theorem stepRemoveFromCart_of_absent {l : List LineItem} {p : Nat} {q : Int}
    (h : l.find? (fun li => li.product == p) = none) :
    stepRemoveFromCart l p q = .ok none := by
  induction l with
  | nil => rfl
  | cons a rest ih =>
    rw [List.find?_eq_none] at h
    have ha : (a.product == p) = false := by simpa using h a (List.mem_cons_self a rest)
    have hrest : rest.find? (fun li => li.product == p) = none := by
      rw [List.find?_eq_none]
      intro x hx
      exact h x (List.mem_cons_of_mem a hx)
    simp [stepRemoveFromCart, ha, ih hrest]

/-! ## Shape lemmas for the controllers -/

theorem find?_key_unique {α β : Type} [DecidableEq β] {k : α → β} {key : β} {l : List α}
    {d a : α} (hnd : (l.map k).Nodup)
    (hd : l.find? (fun x => k x == key) = some d)
    (ha : a ∈ l) (hak : k a = key) : a = d := by
  induction l with
  | nil => simp at hd
  | cons b rest ih =>
    rw [List.map_cons, List.nodup_cons] at hnd
    by_cases hb : (k b == key) = true
    · have h2 : (b :: rest).find? (fun x => k x == key) = some b :=
        List.find?_cons_of_pos _ hb
      rw [h2] at hd
      injection hd with hd
      subst hd
      rcases List.mem_cons.mp ha with rfl | ha2
      · rfl
      · exfalso
        have hbk : k b = key := by simpa using hb
        exact hnd.1 (by rw [hbk, ← hak]; exact List.mem_map_of_mem k ha2)
    · have h2 : (b :: rest).find? (fun x => k x == key) = rest.find? (fun x => k x == key) :=
        List.find?_cons_of_neg _ hb
      rw [h2] at hd
      rcases List.mem_cons.mp ha with rfl | ha2
      · exact absurd (by simp [hak]) hb
      · exact ih hnd.2 hd ha2

theorem reserveStock_some {products : List ProductDoc} {p : Nat} {q : Int} {b : ProductDoc}
    (h : (reserveStock products p q).1 = some b) :
    ∃ l₁ a l₂, products = l₁ ++ a :: l₂ ∧ (∀ x ∈ l₁, stockFilter p q x = false) ∧
      (a.pid == p) = true ∧ q ≤ a.stock ∧ b = { a with stock := a.stock - q } ∧
      (reserveStock products p q).2 = l₁ ++ { a with stock := a.stock - q } :: l₂ := by
  obtain ⟨l₁, a, l₂, hl, h1, ha, hb, hsnd⟩ := updateFirst_fst_some h
  simp only [stockFilter, Bool.and_eq_true, decide_eq_true_eq] at ha
  exact ⟨l₁, a, l₂, hl, h1, ha.1, ha.2, hb, hsnd⟩

theorem addItemInCart_eq (db : DB) (req : AddItemReq) (uf : Bool) (p : Nat)
    (hp : req.product = some p) :
    addItemInCart db req uf =
      match (reserveStock db.products p req.quantity).1 with
      | none => (.error ⟨"No sufficient stock available.", 400⟩,
          { db with products := (reserveStock db.products p req.quantity).2 })
      | some docProduct =>
        if uf then
          (.error ⟨"Failed to add item in cart, please try again.", 500⟩,
            saveProduct { db with products := (reserveStock db.products p req.quantity).2 }
              { docProduct with stock := docProduct.stock + req.quantity })
        else
          let rc := upsertCart
            { db with products := (reserveStock db.products p req.quantity).2 } req.userId
          let docCart1 : CartDoc :=
            { rc.1 with products := mergeOrPush rc.1.products p req.variants req.quantity }
          (.ok docCart1, saveCart rc.2 docCart1) := by
  unfold addItemInCart
  rw [hp]

theorem reserveStock_snd_of_none {products : List ProductDoc} {p : Nat} {q : Int}
    (h : (reserveStock products p q).1 = none) :
    (reserveStock products p q).2 = products :=
  updateFirst_snd_of_fst_none h

theorem addItemInCart_insufficient (db : DB) (req : AddItemReq) (uf : Bool) (p : Nat)
    (hp : req.product = some p)
    (hnone : (reserveStock db.products p req.quantity).1 = none) :
    addItemInCart db req uf = (.error ⟨"No sufficient stock available.", 400⟩, db) := by
  rw [addItemInCart_eq db req uf p hp, hnone, reserveStock_snd_of_none hnone]

theorem addItemInCart_rollback_eq (db : DB) (req : AddItemReq) (p : Nat)
    (docProduct : ProductDoc) (hp : req.product = some p)
    (hsome : (reserveStock db.products p req.quantity).1 = some docProduct) :
    addItemInCart db req true =
      (.error ⟨"Failed to add item in cart, please try again.", 500⟩,
        saveProduct { db with products := (reserveStock db.products p req.quantity).2 }
          { docProduct with stock := docProduct.stock + req.quantity }) := by
  rw [addItemInCart_eq db req true p hp, hsome]
  rfl

theorem addItemInCart_ok_eq (db : DB) (req : AddItemReq) (p : Nat)
    (docProduct : ProductDoc) (hp : req.product = some p)
    (hsome : (reserveStock db.products p req.quantity).1 = some docProduct) :
    addItemInCart db req false =
      (let rc := upsertCart
          { db with products := (reserveStock db.products p req.quantity).2 } req.userId
       let docCart1 : CartDoc :=
         { rc.1 with products := mergeOrPush rc.1.products p req.variants req.quantity }
       (.ok docCart1, saveCart rc.2 docCart1)) := by
  rw [addItemInCart_eq db req false p hp, hsome]
  rfl

/-! ## Claim theorems -/

/-- C2: `addItemInCart` only decrements a product's stock through the single
atomic compare-and-decrement `findOneAndUpdate({_id, stock: {$gte: q}},
{$inc: {stock: -q}})`. When the product's stock is below the requested
quantity the call fails with the insufficient-stock error and leaves the
whole database — the product's stock and the user's cart included —
unchanged, and no call ever drives a stored stock below zero. -/
theorem addItemInCart_atomic_compare_and_decrement
    (db : DB) (req : AddItemReq) (uf : Bool) (p : Nat) (d : ProductDoc)
    (hnd : (db.products.map (fun x => x.pid)).Nodup)
    (hp : req.product = some p)
    (hd : findProduct db.products p = some d) :
    (d.stock < req.quantity →
      addItemInCart db req uf =
        (.error ⟨"No sufficient stock available.", 400⟩, db)) ∧
    ((∀ e ∈ db.products, 0 ≤ e.stock) →
      ∀ e ∈ (addItemInCart db req uf).2.products, 0 ≤ e.stock) := by
  constructor
  · intro hlt
    have hnone : (reserveStock db.products p req.quantity).1 = none := by
      unfold reserveStock
      rw [updateFirst_fst_eq_none]
      intro a ha
      by_cases hpid : a.pid = p
      · have had : a = d := find?_key_unique hnd hd ha hpid
        subst had
        simp [stockFilter, not_le.mpr hlt]
      · simp [stockFilter, hpid]
    exact addItemInCart_insufficient db req uf p hp hnone
  · intro h0 e he
    cases hres : (reserveStock db.products p req.quantity).1 with
    | none =>
      rw [addItemInCart_insufficient db req uf p hp hres] at he
      exact h0 e he
    | some docProduct =>
      obtain ⟨l₁, a, l₂, hl, h1, hapid, hqle, hbd, hsnd⟩ := reserveStock_some hres
      have hmem : ∀ x ∈ (reserveStock db.products p req.quantity).2, 0 ≤ x.stock := by
        intro x hx
        rcases mem_updateFirst_snd hx with hx | ⟨b, hb, hpb, hxb⟩
        · exact h0 x hx
        · subst hxb
          simp only [stockFilter, Bool.and_eq_true, decide_eq_true_eq] at hpb
          simpa using sub_nonneg.mpr hpb.2
      have hamem : a ∈ db.products := by
        rw [hl]
        exact List.mem_append.mpr (.inr (List.mem_cons_self a l₂))
      cases uf with
      | true =>
        rw [addItemInCart_rollback_eq db req p docProduct hp hres] at he
        simp only [saveProduct] at he
        rcases List.mem_map.mp he with ⟨x, hx, hxe⟩
        subst hxe
        split
        · rw [hbd]
          simpa [sub_add_cancel] using h0 a hamem
        · exact hmem x hx
      | false =>
        rw [addItemInCart_ok_eq db req p docProduct hp hres] at he
        simp only [saveCart_products, upsertCart_products] at he
        exact hmem e he

/-- Witness for C2: a one-product store with stock 3 and a request for 9. -/
theorem addItemInCart_atomic_compare_and_decrement_witness :
    (((([⟨1, 100, none, 3⟩] : List ProductDoc)).map (fun x => x.pid)).Nodup ∧
      findProduct [⟨1, 100, none, 3⟩] 1 = some ⟨1, 100, none, 3⟩ ∧
      (3 : Int) < 9) ∧
    addItemInCart ⟨[⟨1, 100, none, 3⟩], [], [], 5⟩ ⟨7, some 1, 9, ⟨none, none, none⟩⟩ false =
      (.error ⟨"No sufficient stock available.", 400⟩,
        ⟨[⟨1, 100, none, 3⟩], [], [], 5⟩) := by
  refine ⟨⟨by decide, by decide, by decide⟩, ?_⟩
  exact (addItemInCart_atomic_compare_and_decrement
    ⟨[⟨1, 100, none, 3⟩], [], [], 5⟩ ⟨7, some 1, 9, ⟨none, none, none⟩⟩ false 1
    ⟨1, 100, none, 3⟩ (by decide) rfl (by decide)).1 (by decide)

/-- C1: when the stock decrement of `addItemInCart` has applied and the cart
upsert step fails, the single compensating write (`DocProduct.stock += quantity`
then `save`) puts the decremented quantity back before the 500 error is
reported, so the database — product stocks and carts alike — is exactly as it
was before the call. -/
theorem addItemInCart_rollback_compensates
    (db : DB) (req : AddItemReq) (p : Nat) (docProduct : ProductDoc)
    (hnd : (db.products.map (fun x => x.pid)).Nodup)
    (hp : req.product = some p)
    (hres : (reserveStock db.products p req.quantity).1 = some docProduct) :
    addItemInCart db req true =
      (.error ⟨"Failed to add item in cart, please try again.", 500⟩, db) := by
  obtain ⟨l₁, a, l₂, hl, h1, hapid, hqle, hbd, hsnd⟩ := reserveStock_some hres
  have hroll : ({ docProduct with stock := docProduct.stock + req.quantity } : ProductDoc)
      = a := by
    rw [hbd]
    cases a
    simp [sub_add_cancel]
  have hnd2 : ((l₁ ++ a :: l₂).map (fun x => x.pid)).Nodup := by
    rw [← hl]
    exact hnd
  obtain ⟨hk1, hk2⟩ := key_ne_of_nodup_middle hnd2
  have e1 : l₁.map (fun x => if x.pid == a.pid then a else x) = l₁ :=
    map_eq_self_of_forall (fun x hx => if_neg (by simp [hk1 x hx]))
  have e3 : l₂.map (fun x => if x.pid == a.pid then a else x) = l₂ :=
    map_eq_self_of_forall (fun x hx => if_neg (by simp [hk2 x hx]))
  have hprods : (l₁ ++ ({ a with stock := a.stock - req.quantity } : ProductDoc) :: l₂).map
      (fun x => if x.pid == a.pid then a else x) = l₁ ++ a :: l₂ := by
    simp only [List.map_append, List.map_cons]
    rw [e1, e3]
    simp
  have hsave : saveProduct
      { db with products := (reserveStock db.products p req.quantity).2 } a = db := by
    simp only [saveProduct, hsnd]
    rw [hprods, ← hl]
  rw [addItemInCart_rollback_eq db req p docProduct hp hres, hroll, hsave]

/-- Witness for C1: a store with stock 5, a reservation of 2 that succeeds,
and a failing cart upsert; the call errors and the state is untouched. -/
theorem addItemInCart_rollback_compensates_witness :
    (((([⟨1, 100, none, 5⟩] : List ProductDoc)).map (fun x => x.pid)).Nodup ∧
      (reserveStock [⟨1, 100, none, 5⟩] 1 2).1 = some ⟨1, 100, none, 3⟩) ∧
    addItemInCart ⟨[⟨1, 100, none, 5⟩], [], [], 4⟩ ⟨7, some 1, 2, ⟨none, none, none⟩⟩ true =
      (.error ⟨"Failed to add item in cart, please try again.", 500⟩,
        ⟨[⟨1, 100, none, 5⟩], [], [], 4⟩) := by
  refine ⟨⟨by decide, by decide⟩, ?_⟩
  exact addItemInCart_rollback_compensates
    ⟨[⟨1, 100, none, 5⟩], [], [], 4⟩ ⟨7, some 1, 2, ⟨none, none, none⟩⟩ 1
    ⟨1, 100, none, 3⟩ (by decide) rfl (by decide)

theorem addItemInCart_ok_eq2 (db : DB) (req : AddItemReq) (p : Nat) (docProduct : ProductDoc)
    (hp : req.product = some p)
    (hsome : (reserveStock db.products p req.quantity).1 = some docProduct) :
    addItemInCart db req false =
      (.ok (addItemNormal db req p).1, (addItemNormal db req p).2) := by
  rw [addItemInCart_ok_eq db req p docProduct hp hsome]
  rfl

theorem addItemNormal_spec (db : DB) (req : AddItemReq) (p : Nat)
    (hndc : (db.carts.map (fun x => x.cid)).Nodup)
    (hfresh : ∀ c ∈ db.carts, c.cid < db.nextCid) :
    cartOf (addItemNormal db req p).2 req.userId = some (addItemNormal db req p).1 ∧
    itemQty (addItemNormal db req p).1.products p = cartQty db req.userId p + req.quantity ∧
    itemsReserved (addItemNormal db req p).1.products p =
      reservedQty db req.userId p + req.quantity ∧
    (addItemNormal db req p).2.products = (reserveStock db.products p req.quantity).2 ∧
    ∀ c₀, cartOf db req.userId = some c₀ →
      (addItemNormal db req p).1 =
        { c₀ with products := mergeOrPush c₀.products p req.variants req.quantity } := by
  cases hc : cartOf db req.userId with
  | some c =>
    have hc1 : cartOf { db with products := (reserveStock db.products p req.quantity).2 }
        req.userId = some c := hc
    have hcfind : db.carts.find? (fun x => x.owner == req.userId) = some c := hc
    have hco : c.owner = req.userId := by simpa using List.find?_some hcfind
    simp only [addItemNormal, upsertCart_found hc1]
    refine ⟨?_, ?_, ?_, rfl, ?_⟩
    · exact find?_save_of_first hndc hcfind rfl hco
    · rw [itemQty_mergeOrPush]
      unfold cartQty
      rw [hc]
    · rw [itemsReserved_mergeOrPush]
      unfold reservedQty
      rw [hc]
    · intro c₀ h0
      injection h0 with h0
      subst h0
      rfl
  | none =>
    have hc1 : cartOf { db with products := (reserveStock db.products p req.quantity).2 }
        req.userId = none := hc
    have hcfind : db.carts.find? (fun x => x.owner == req.userId) = none := hc
    have hnd3 : ((db.carts ++ [(⟨db.nextCid, req.userId, []⟩ : CartDoc)]).map
        (fun x => x.cid)).Nodup :=
      nodup_cid_append_fresh hndc (fun x hx => Nat.ne_of_lt (hfresh x hx))
    have hfind : (db.carts ++ [(⟨db.nextCid, req.userId, []⟩ : CartDoc)]).find?
        (fun x => x.owner == req.userId) = some ⟨db.nextCid, req.userId, []⟩ :=
      find?_append_right_single hcfind rfl
    simp only [addItemNormal, upsertCart_missing hc1]
    refine ⟨?_, ?_, ?_, rfl, ?_⟩
    · exact find?_save_of_first hnd3 hfind rfl rfl
    · rw [itemQty_mergeOrPush]
      unfold cartQty
      rw [hc]
      rfl
    · rw [itemsReserved_mergeOrPush]
      unfold reservedQty
      rw [hc]
      rfl
    · intro c₀ h0
      exact absurd h0 (by simp)

/-- C6: a successful `addItemInCart` by user `u` for product `p` with
quantity `q` leaves `p`'s stock exactly `q` lower, leaves `u` owning a cart
(upserted if absent) — namely the returned one — and that cart's line item
for `p` carries exactly `q` more than before (`0` before when absent). -/
theorem addItemInCart_success_postcondition
    (db : DB) (req : AddItemReq) (p : Nat) (cart1 : CartDoc)
    (hwf : db.WF)
    (hp : req.product = some p)
    (hok : (addItemInCart db req false).1 = .ok cart1) :
    stockD (addItemInCart db req false).2 p = stockD db p - req.quantity ∧
    cartOf (addItemInCart db req false).2 req.userId = some cart1 ∧
    cartQty (addItemInCart db req false).2 req.userId p =
      cartQty db req.userId p + req.quantity := by
  cases hres : (reserveStock db.products p req.quantity).1 with
  | none =>
    rw [addItemInCart_insufficient db req false p hp hres] at hok
    simp at hok
  | some docProduct =>
    obtain ⟨l₁, a, l₂, hl, h1, hapid, hqle, hbd, hsnd⟩ := reserveStock_some hres
    have hap : a.pid = p := by simpa using hapid
    have hnd2 : ((l₁ ++ a :: l₂).map (fun x => x.pid)).Nodup := by
      rw [← hl]
      exact hwf.1
    have hk1p : ∀ x ∈ l₁, x.pid ≠ p := fun x hx => by
      rw [← hap]
      exact (key_ne_of_nodup_middle hnd2).1 x hx
    have hfd_before : findProduct db.products p = some a := by
      rw [hl]
      exact findProduct_middle hapid hk1p
    have hfd_after : findProduct (reserveStock db.products p req.quantity).2 p =
        some { a with stock := a.stock - req.quantity } := by
      rw [hsnd]
      exact findProduct_middle (by simpa using hap) hk1p
    have hspec := addItemNormal_spec db req p hwf.2.1 hwf.2.2
    have heq := addItemInCart_ok_eq2 db req p docProduct hp hres
    have hcart1 : (addItemNormal db req p).1 = cart1 := by
      have h2 : (Except.ok (addItemNormal db req p).1 : Except AppError CartDoc) =
          .ok cart1 := by
        rw [heq] at hok
        exact hok
      injection h2
    subst hcart1
    refine ⟨?_, ?_, ?_⟩
    · rw [heq]
      unfold stockD
      rw [hspec.2.2.2.1, hfd_after, hfd_before]
    · rw [heq]
      exact hspec.1
    · rw [heq]
      unfold cartQty
      rw [hspec.1]
      exact hspec.2.1

/-- Witness for C6: stock 5, empty store of carts; adding quantity 2 yields
stock 3 and a fresh cart with a quantity-2 line item. -/
theorem addItemInCart_success_postcondition_witness :
    (DB.WF ⟨[⟨1, 100, none, 5⟩], [], [], 4⟩ ∧
      (addItemInCart ⟨[⟨1, 100, none, 5⟩], [], [], 4⟩
          ⟨7, some 1, 2, ⟨none, none, none⟩⟩ false).1 =
        .ok ⟨4, 7, [⟨1, ⟨none, none, none⟩, 2⟩]⟩) ∧
    stockD (addItemInCart ⟨[⟨1, 100, none, 5⟩], [], [], 4⟩
        ⟨7, some 1, 2, ⟨none, none, none⟩⟩ false).2 1 =
      stockD ⟨[⟨1, 100, none, 5⟩], [], [], 4⟩ 1 - 2 ∧
    cartOf (addItemInCart ⟨[⟨1, 100, none, 5⟩], [], [], 4⟩
        ⟨7, some 1, 2, ⟨none, none, none⟩⟩ false).2 7 =
      some ⟨4, 7, [⟨1, ⟨none, none, none⟩, 2⟩]⟩ ∧
    cartQty (addItemInCart ⟨[⟨1, 100, none, 5⟩], [], [], 4⟩
        ⟨7, some 1, 2, ⟨none, none, none⟩⟩ false).2 7 1 =
      cartQty ⟨[⟨1, 100, none, 5⟩], [], [], 4⟩ 7 1 + 2 := by
  refine ⟨⟨by decide, rfl⟩, ?_⟩
  exact addItemInCart_success_postcondition ⟨[⟨1, 100, none, 5⟩], [], [], 4⟩
    ⟨7, some 1, 2, ⟨none, none, none⟩⟩ 1 ⟨4, 7, [⟨1, ⟨none, none, none⟩, 2⟩]⟩
    (by decide) rfl rfl

/-- C7: a successful `addItemInCart` moves quantity out of the product's
stock and into the requesting user's cart without loss: the sum of `p`'s
stock and the total quantity of `p` reserved across that user's cart is
unchanged. -/
theorem addItemInCart_conserves_stock_plus_reserved
    (db : DB) (req : AddItemReq) (p : Nat) (cart1 : CartDoc)
    (hwf : db.WF)
    (hp : req.product = some p)
    (hok : (addItemInCart db req false).1 = .ok cart1) :
    stockD (addItemInCart db req false).2 p +
        reservedQty (addItemInCart db req false).2 req.userId p =
      stockD db p + reservedQty db req.userId p := by
  cases hres : (reserveStock db.products p req.quantity).1 with
  | none =>
    rw [addItemInCart_insufficient db req false p hp hres] at hok
    simp at hok
  | some docProduct =>
    obtain ⟨l₁, a, l₂, hl, h1, hapid, hqle, hbd, hsnd⟩ := reserveStock_some hres
    have hap : a.pid = p := by simpa using hapid
    have hnd2 : ((l₁ ++ a :: l₂).map (fun x => x.pid)).Nodup := by
      rw [← hl]
      exact hwf.1
    have hk1p : ∀ x ∈ l₁, x.pid ≠ p := fun x hx => by
      rw [← hap]
      exact (key_ne_of_nodup_middle hnd2).1 x hx
    have hfd_before : findProduct db.products p = some a := by
      rw [hl]
      exact findProduct_middle hapid hk1p
    have hfd_after : findProduct (reserveStock db.products p req.quantity).2 p =
        some { a with stock := a.stock - req.quantity } := by
      rw [hsnd]
      exact findProduct_middle (by simpa using hap) hk1p
    have hspec := addItemNormal_spec db req p hwf.2.1 hwf.2.2
    have heq := addItemInCart_ok_eq2 db req p docProduct hp hres
    have e1 : stockD (addItemInCart db req false).2 p = a.stock - req.quantity := by
      rw [heq]
      unfold stockD
      rw [hspec.2.2.2.1, hfd_after]
    have e2 : reservedQty (addItemInCart db req false).2 req.userId p =
        reservedQty db req.userId p + req.quantity := by
      rw [heq]
      unfold reservedQty
      rw [hspec.1]
      exact hspec.2.2.1
    have e3 : stockD db p = a.stock := by
      unfold stockD
      rw [hfd_before]
    rw [e1, e2, e3]
    ring

/-- Witness for C7: the conserved quantity before and after a concrete
successful add. -/
theorem addItemInCart_conserves_stock_plus_reserved_witness :
    (DB.WF ⟨[⟨1, 100, none, 5⟩], [⟨2, 7, [⟨1, ⟨none, none, none⟩, 1⟩]⟩], [], 4⟩ ∧
      (addItemInCart ⟨[⟨1, 100, none, 5⟩], [⟨2, 7, [⟨1, ⟨none, none, none⟩, 1⟩]⟩], [], 4⟩
          ⟨7, some 1, 2, ⟨none, none, none⟩⟩ false).1 =
        .ok ⟨2, 7, [⟨1, ⟨none, none, none⟩, 3⟩]⟩) ∧
    stockD (addItemInCart ⟨[⟨1, 100, none, 5⟩], [⟨2, 7, [⟨1, ⟨none, none, none⟩, 1⟩]⟩], [], 4⟩
          ⟨7, some 1, 2, ⟨none, none, none⟩⟩ false).2 1 +
        reservedQty (addItemInCart
          ⟨[⟨1, 100, none, 5⟩], [⟨2, 7, [⟨1, ⟨none, none, none⟩, 1⟩]⟩], [], 4⟩
          ⟨7, some 1, 2, ⟨none, none, none⟩⟩ false).2 7 1 =
      stockD ⟨[⟨1, 100, none, 5⟩], [⟨2, 7, [⟨1, ⟨none, none, none⟩, 1⟩]⟩], [], 4⟩ 1 +
        reservedQty ⟨[⟨1, 100, none, 5⟩], [⟨2, 7, [⟨1, ⟨none, none, none⟩, 1⟩]⟩], [], 4⟩ 7 1 := by
  refine ⟨⟨by decide, rfl⟩, ?_⟩
  exact addItemInCart_conserves_stock_plus_reserved
    ⟨[⟨1, 100, none, 5⟩], [⟨2, 7, [⟨1, ⟨none, none, none⟩, 1⟩]⟩], [], 4⟩
    ⟨7, some 1, 2, ⟨none, none, none⟩⟩ 1 ⟨2, 7, [⟨1, ⟨none, none, none⟩, 3⟩]⟩
    (by decide) rfl rfl

theorem addItemInCart_no_product (db : DB) (req : AddItemReq) (uf : Bool)
    (hp : req.product = none) :
    addItemInCart db req uf =
      (.error ⟨"Must provide id of the product to add into the cart.", 400⟩, db) := by
  unfold addItemInCart
  rw [hp]

/-- C3: every `addItemInCart` call — missing product id, insufficient stock,
failed upsert with rollback, fresh-cart push or merge, success or failure —
preserves the property that no stored cart holds two line items for the same
product id, so no sequence of such calls ever creates a duplicate; and when
the user's cart already holds a line item for the requested product
(`findIndex` locates it at `i`), a successful call increments that entry in
place: the returned cart is the old one with `products[i].quantity` raised
by the requested quantity and the same number of line items, with nothing
appended. -/
theorem addItemInCart_merges_existing_line_item
    (db : DB) (req : AddItemReq) (uf : Bool) (p : Nat) (c : CartDoc) (i : Nat)
    (cart1 : CartDoc)
    (hkeys : ∀ cc ∈ db.carts, (cc.products.map (fun li => li.product)).Nodup) :
    (∀ cc ∈ (addItemInCart db req uf).2.carts,
      (cc.products.map (fun li => li.product)).Nodup) ∧
    (req.product = some p →
      cartOf db req.userId = some c →
      c.products.findIdx? (fun li => li.product == p) = some i →
      (addItemInCart db req false).1 = .ok cart1 →
      cart1 = { c with products := incQtyAt c.products i req.quantity } ∧
      cart1.products.length = c.products.length) := by
  constructor
  · cases hp : req.product with
    | none =>
      rw [addItemInCart_no_product db req uf hp]
      exact hkeys
    | some p1 =>
      cases hres : (reserveStock db.products p1 req.quantity).1 with
      | none =>
        rw [addItemInCart_insufficient db req uf p1 hp hres]
        exact hkeys
      | some docProduct =>
        cases uf with
        | true =>
          rw [addItemInCart_rollback_eq db req p1 docProduct hp hres]
          exact hkeys
        | false =>
          rw [addItemInCart_ok_eq2 db req p1 docProduct hp hres]
          show ∀ cc ∈ (addItemNormal db req p1).2.carts,
            (cc.products.map (fun li => li.product)).Nodup
          cases hc : cartOf db req.userId with
          | some c0 =>
            have hc1 : cartOf
                { db with products := (reserveStock db.products p1 req.quantity).2 }
                req.userId = some c0 := hc
            have hcarts : (addItemNormal db req p1).2.carts =
                db.carts.map (fun x =>
                  if x.cid == c0.cid then
                    { c0 with products := mergeOrPush c0.products p1 req.variants req.quantity }
                  else x) := by
              simp only [addItemNormal, upsertCart_found hc1, saveCart]
            intro cc hcc
            rw [hcarts] at hcc
            rcases List.mem_map.mp hcc with ⟨x, hx, hxe⟩
            subst hxe
            split
            · show ((mergeOrPush c0.products p1 req.variants req.quantity).map
                (fun li => li.product)).Nodup
              exact keys_mergeOrPush_nodup (hkeys c0 (List.mem_of_find?_eq_some hc))
            · exact hkeys x hx
          | none =>
            have hc1 : cartOf
                { db with products := (reserveStock db.products p1 req.quantity).2 }
                req.userId = none := hc
            have hcarts : (addItemNormal db req p1).2.carts =
                (db.carts ++ [(⟨db.nextCid, req.userId, []⟩ : CartDoc)]).map (fun x =>
                  if x.cid == db.nextCid then
                    (⟨db.nextCid, req.userId,
                      mergeOrPush [] p1 req.variants req.quantity⟩ : CartDoc)
                  else x) := by
              simp only [addItemNormal, upsertCart_missing hc1, saveCart]
            intro cc hcc
            rw [hcarts] at hcc
            rcases List.mem_map.mp hcc with ⟨x, hx, hxe⟩
            subst hxe
            split
            · show ((mergeOrPush [] p1 req.variants req.quantity).map
                (fun li => li.product)).Nodup
              exact keys_mergeOrPush_nodup (by simp)
            · rcases List.mem_append.mp hx with hx2 | hx2
              · exact hkeys x hx2
              · have hxn : x = (⟨db.nextCid, req.userId, []⟩ : CartDoc) := by
                  simpa using hx2
                subst hxn
                simp
  · intro hp hc hi hok
    cases hres : (reserveStock db.products p req.quantity).1 with
    | none =>
      rw [addItemInCart_insufficient db req false p hp hres] at hok
      simp at hok
    | some docProduct =>
      have heq := addItemInCart_ok_eq2 db req p docProduct hp hres
      have hc1 : cartOf { db with products := (reserveStock db.products p req.quantity).2 }
          req.userId = some c := hc
      have hmerge : mergeOrPush c.products p req.variants req.quantity =
          incQtyAt c.products i req.quantity :=
        mergeOrPush_of_findIdx req.variants req.quantity hi
      have hnorm : (addItemNormal db req p).1 =
          { c with products := incQtyAt c.products i req.quantity } := by
        simp only [addItemNormal, upsertCart_found hc1, hmerge]
      have hcart1 : (addItemNormal db req p).1 = cart1 := by
        have h2 : (Except.ok (addItemNormal db req p).1 : Except AppError CartDoc) =
            .ok cart1 := by
          rw [heq] at hok
          exact hok
        injection h2
      refine ⟨by rw [← hcart1, hnorm], ?_⟩
      rw [← hcart1, hnorm]
      exact length_incQtyAt c.products i req.quantity

/-- Witness for C3: a cart already holding one unit of product 1; a
successful add of two more merges into the single line item in place. -/
theorem addItemInCart_merges_existing_line_item_witness :
    (⟨2, 7, [⟨1, ⟨none, none, none⟩, 3⟩]⟩ : CartDoc) =
      { cid := 2, owner := 7,
        products := incQtyAt [⟨1, ⟨none, none, none⟩, 1⟩] 0 2 } ∧
    ([(⟨1, ⟨none, none, none⟩, 3⟩ : LineItem)].length =
      [(⟨1, ⟨none, none, none⟩, 1⟩ : LineItem)].length) :=
  (addItemInCart_merges_existing_line_item
    ⟨[⟨1, 100, none, 5⟩], [⟨2, 7, [⟨1, ⟨none, none, none⟩, 1⟩]⟩], [], 4⟩
    ⟨7, some 1, 2, ⟨none, none, none⟩⟩ false 1 ⟨2, 7, [⟨1, ⟨none, none, none⟩, 1⟩]⟩ 0
    ⟨2, 7, [⟨1, ⟨none, none, none⟩, 3⟩]⟩ (by decide)).2
    rfl (by decide) (by decide) rfl

/-- C8: `removeItemFromCart` for a product that is not in the requesting
user's cart (the `ind === -1` case is skipped silently) still runs the
unconditional `$inc` on the product's stock and responds 200 with the cart
unchanged: stock grows by the requested quantity although nothing had been
reserved. -/
theorem removeItemFromCart_absent_still_restocks
    (db : DB) (req : RemoveItemReq) (p : Nat) (q : Int) (c : CartDoc) (d : ProductDoc)
    (hp : req.product = some p)
    (hq : req.quantity = some q)
    (hq0 : q ≠ 0)
    (hc : cartOf db req.userId = some c)
    (habsent : c.products.find? (fun li => li.product == p) = none)
    (hd : findProduct db.products p = some d) :
    removeItemFromCart db req =
      (.ok c, { db with products := (updateFirst (fun x => x.pid == p)
          (fun x => { x with stock := x.stock + q }) db.products).2 }) ∧
    stockD (removeItemFromCart db req).2 p = stockD db p + q ∧
    (removeItemFromCart db req).2.carts = db.carts := by
  have hq0b : (q == 0) = false := beq_eq_false_iff_ne.mpr hq0
  have hup : upsertCart db req.userId = (c, db) := upsertCart_found hc
  have hstep : stepRemoveFromCart c.products p q = .ok none :=
    stepRemoveFromCart_of_absent habsent
  have hfst : (updateFirst (fun x => x.pid == p)
      (fun x => { x with stock := x.stock + q }) db.products).1 =
      some { d with stock := d.stock + q } :=
    updateFirst_fst_of_find? hd
  have heq : removeItemFromCart db req =
      (.ok c, { db with products := (updateFirst (fun x => x.pid == p)
          (fun x => { x with stock := x.stock + q }) db.products).2 }) := by
    unfold removeItemFromCart
    rw [hp, hq]
    simp only [hq0b, Bool.false_eq_true, if_false, hup, hstep, hfst]
  refine ⟨heq, ?_, ?_⟩
  · obtain ⟨l₁, a, l₂, hl, h1, ha, hba, hsnd⟩ := updateFirst_fst_some hfst
    have hk1p : ∀ x ∈ l₁, x.pid ≠ p := fun x hx => by simpa using h1 x hx
    have hfd_after : findProduct (updateFirst (fun x => x.pid == p)
        (fun x => { x with stock := x.stock + q }) db.products).2 p =
        some { a with stock := a.stock + q } := by
      rw [hsnd]
      exact findProduct_middle (by simpa using ha) hk1p
    rw [heq]
    unfold stockD
    rw [hfd_after, hd]
    have : ({ a with stock := a.stock + q } : ProductDoc).stock =
        ({ d with stock := d.stock + q } : ProductDoc).stock := by rw [hba]
    simpa using this
  · rw [heq]

/-- Witness for C8: product 2 is stocked but absent from the user's cart;
removing 4 of it succeeds and adds 4 to its stock. -/
theorem removeItemFromCart_absent_still_restocks_witness :
    (cartOf ⟨[⟨1, 100, none, 5⟩, ⟨2, 50, none, 1⟩], [⟨3, 7, [⟨1, ⟨none, none, none⟩, 2⟩]⟩], [], 10⟩ 7 =
        some ⟨3, 7, [⟨1, ⟨none, none, none⟩, 2⟩]⟩ ∧
      ([(⟨1, ⟨none, none, none⟩, 2⟩ : LineItem)].find? (fun li => li.product == 2) = none) ∧
      findProduct [⟨1, 100, none, 5⟩, ⟨2, 50, none, 1⟩] 2 = some ⟨2, 50, none, 1⟩) ∧
    stockD (removeItemFromCart
        ⟨[⟨1, 100, none, 5⟩, ⟨2, 50, none, 1⟩], [⟨3, 7, [⟨1, ⟨none, none, none⟩, 2⟩]⟩], [], 10⟩
        ⟨7, some 2, some 4, ⟨none, none, none⟩⟩).2 2 =
      stockD ⟨[⟨1, 100, none, 5⟩, ⟨2, 50, none, 1⟩], [⟨3, 7, [⟨1, ⟨none, none, none⟩, 2⟩]⟩], [], 10⟩ 2 + 4 ∧
    (removeItemFromCart
        ⟨[⟨1, 100, none, 5⟩, ⟨2, 50, none, 1⟩], [⟨3, 7, [⟨1, ⟨none, none, none⟩, 2⟩]⟩], [], 10⟩
        ⟨7, some 2, some 4, ⟨none, none, none⟩⟩).2.carts =
      [⟨3, 7, [⟨1, ⟨none, none, none⟩, 2⟩]⟩] := by
  refine ⟨⟨by decide, by decide, by decide⟩, ?_, ?_⟩
  · exact (removeItemFromCart_absent_still_restocks
      ⟨[⟨1, 100, none, 5⟩, ⟨2, 50, none, 1⟩], [⟨3, 7, [⟨1, ⟨none, none, none⟩, 2⟩]⟩], [], 10⟩
      ⟨7, some 2, some 4, ⟨none, none, none⟩⟩ 2 4 ⟨3, 7, [⟨1, ⟨none, none, none⟩, 2⟩]⟩
      ⟨2, 50, none, 1⟩ rfl rfl (by decide) (by decide) (by decide) (by decide)).2.1
  · exact (removeItemFromCart_absent_still_restocks
      ⟨[⟨1, 100, none, 5⟩, ⟨2, 50, none, 1⟩], [⟨3, 7, [⟨1, ⟨none, none, none⟩, 2⟩]⟩], [], 10⟩
      ⟨7, some 2, some 4, ⟨none, none, none⟩⟩ 2 4 ⟨3, 7, [⟨1, ⟨none, none, none⟩, 2⟩]⟩
      ⟨2, 50, none, 1⟩ rfl rfl (by decide) (by decide) (by decide) (by decide)).2.2

/-! ## Lemmas about placeMyOrder -/

theorem placeMyOrder_error_state (db : DB) (user : UserDoc) (status : CheckoutStatus)
    (createFails : Bool) :
    ∀ e, (placeMyOrder db user status createFails).1 = .error e →
      (placeMyOrder db user status createFails).2 = db := by
  intro e h
  unfold placeMyOrder at h ⊢
  cases huid : user.uid with
  | none => rfl
  | some uid =>
    simp only [huid] at h ⊢
    cases hc : db.carts.find? (fun c => c.owner == uid) with
    | none => rfl
    | some cart =>
      simp only [hc] at h ⊢
      cases hne : cart.products.isEmpty with
      | true => simp only [hne, if_true]
      | false =>
        simp only [hne, Bool.false_eq_true, if_false] at h ⊢
        cases hb : user.addresses.find? (fun a => a.default_billing_address) with
        | none =>
          cases hs : user.addresses.find? (fun a => a.default_shipping_address) with
          | none => simp only [hb, hs]
          | some shipping => simp only [hb, hs]
        | some billing =>
          cases hs : user.addresses.find? (fun a => a.default_shipping_address) with
          | none => simp only [hb, hs]
          | some shipping =>
            simp only [hb, hs] at h ⊢
            cases createFails with
            | true => rfl
            | false => simp at h

theorem placeMyOrder_ok_eq (db : DB) (user : UserDoc) (status : CheckoutStatus)
    (uid : Nat) (cart : CartDoc) (billing shipping : AddressDoc)
    (huid : user.uid = some uid)
    (hcart : db.carts.find? (fun c => c.owner == uid) = some cart)
    (hne : cart.products.isEmpty = false)
    (hb : user.addresses.find? (fun a => a.default_billing_address) = some billing)
    (hs : user.addresses.find? (fun a => a.default_shipping_address) = some shipping) :
    placeMyOrder db user status false =
      (.ok (orderObject db cart uid billing shipping status),
        saveCart
          { db with orders := db.orders ++ [orderObject db cart uid billing shipping status] }
          { cart with products := [] }) := by
  unfold placeMyOrder
  simp only [huid, hcart, hne, Bool.false_eq_true, if_false, hb, hs]

theorem placeMyOrder_ok_inv (db : DB) (user : UserDoc) (status : CheckoutStatus)
    (createFails : Bool) (uid : Nat) (cart : CartDoc) (order : OrderDoc)
    (huid : user.uid = some uid)
    (hcart : db.carts.find? (fun c => c.owner == uid) = some cart)
    (hok : (placeMyOrder db user status createFails).1 = .ok order) :
    ∃ billing shipping, cart.products.isEmpty = false ∧
      user.addresses.find? (fun a => a.default_billing_address) = some billing ∧
      user.addresses.find? (fun a => a.default_shipping_address) = some shipping ∧
      createFails = false ∧
      order = orderObject db cart uid billing shipping status := by
  unfold placeMyOrder at hok
  simp only [huid, hcart] at hok
  cases hne : cart.products.isEmpty with
  | true =>
    simp only [hne, if_true] at hok
    exact Except.noConfusion hok
  | false =>
    simp only [hne, Bool.false_eq_true, if_false] at hok
    cases hb : user.addresses.find? (fun a => a.default_billing_address) with
    | none =>
      cases hs : user.addresses.find? (fun a => a.default_shipping_address) with
      | none => simp only [hb, hs] at hok; exact Except.noConfusion hok
      | some shipping => simp only [hb, hs] at hok; exact Except.noConfusion hok
    | some billing =>
      cases hs : user.addresses.find? (fun a => a.default_shipping_address) with
      | none => simp only [hb, hs] at hok; exact Except.noConfusion hok
      | some shipping =>
        simp only [hb, hs] at hok
        cases createFails with
        | true => simp at hok
        | false =>
          refine ⟨billing, shipping, rfl, rfl, rfl, rfl, ?_⟩
          have h2 : (Except.ok (orderObject db cart uid billing shipping status) :
              Except AppError OrderDoc) = .ok order := hok
          injection h2 with h3
          exact h3.symm

theorem foldl_add_eq_sum (f : LineItem → Int) (items : List LineItem) (s : Int) :
    items.foldl (fun prev li => prev + f li) s = s + (items.map f).sum := by
  induction items generalizing s with
  | nil => simp
  | cons a rest ih => simp [ih, add_assoc]

theorem totalAmount_eq_amendedTotal (products : List ProductDoc) (items : List LineItem) :
    totalAmount products items = amendedTotal products items := by
  unfold totalAmount amendedTotal
  rw [foldl_add_eq_sum (lineTotal products) items 0, zero_add]
  rfl

/-- C5: `placeMyOrder` empties the owner's cart exactly once and only after
the order document is created: every failing run (missing/empty cart,
missing default addresses, rejected order insert) leaves the database — the
cart included — unchanged, while a successful run starts from a non-empty
cart, appends exactly the returned order and leaves the owner's cart
emptied, touching no product stock. -/
theorem placeMyOrder_clears_cart_exactly_once
    (db : DB) (user : UserDoc) (status : CheckoutStatus) (createFails : Bool)
    (uid : Nat) (cart : CartDoc)
    (hwf : db.WF)
    (huid : user.uid = some uid)
    (hcart : cartOf db uid = some cart) :
    (∀ e, (placeMyOrder db user status createFails).1 = .error e →
      (placeMyOrder db user status createFails).2 = db) ∧
    ∀ order, (placeMyOrder db user status createFails).1 = .ok order →
      cart.products ≠ [] ∧
      cartOf (placeMyOrder db user status createFails).2 uid =
        some { cart with products := [] } ∧
      (placeMyOrder db user status createFails).2.orders = db.orders ++ [order] ∧
      (placeMyOrder db user status createFails).2.products = db.products := by
  have hcfind : db.carts.find? (fun c => c.owner == uid) = some cart := hcart
  refine ⟨placeMyOrder_error_state db user status createFails, ?_⟩
  intro order hok
  obtain ⟨billing, shipping, hne, hb, hs, hcf, hord⟩ :=
    placeMyOrder_ok_inv db user status createFails uid cart order huid hcfind hok
  subst hcf
  have heq := placeMyOrder_ok_eq db user status uid cart billing shipping huid hcfind hne hb hs
  have hco : cart.owner = uid := by simpa using List.find?_some hcfind
  refine ⟨List.isEmpty_eq_false.mp hne, ?_, ?_, ?_⟩
  · rw [heq]
    exact find?_save_of_first hwf.2.1 hcfind rfl hco
  · rw [heq, hord]
    rfl
  · rw [heq]
    rfl

/-- Witness for C5: one concrete run with a rejected order insert leaves the
state untouched, and one successful run leaves the cart emptied. -/
theorem placeMyOrder_clears_cart_exactly_once_witness :
    (DB.WF ⟨[⟨1, 100, none, 5⟩], [⟨3, 7, [⟨1, ⟨none, none, none⟩, 2⟩]⟩], [], 10⟩ ∧
      cartOf ⟨[⟨1, 100, none, 5⟩], [⟨3, 7, [⟨1, ⟨none, none, none⟩, 2⟩]⟩], [], 10⟩ 7 =
        some ⟨3, 7, [⟨1, ⟨none, none, none⟩, 2⟩]⟩) ∧
    (placeMyOrder ⟨[⟨1, 100, none, 5⟩], [⟨3, 7, [⟨1, ⟨none, none, none⟩, 2⟩]⟩], [], 10⟩
        ⟨some 7, [⟨true, true⟩]⟩ CheckoutStatus.cashOnDelivery true).2 =
      ⟨[⟨1, 100, none, 5⟩], [⟨3, 7, [⟨1, ⟨none, none, none⟩, 2⟩]⟩], [], 10⟩ ∧
    cartOf (placeMyOrder ⟨[⟨1, 100, none, 5⟩], [⟨3, 7, [⟨1, ⟨none, none, none⟩, 2⟩]⟩], [], 10⟩
        ⟨some 7, [⟨true, true⟩]⟩ CheckoutStatus.cashOnDelivery false).2 7 =
      some ⟨3, 7, []⟩ := by
  refine ⟨⟨by decide, by decide⟩, ?_, ?_⟩
  · exact (placeMyOrder_clears_cart_exactly_once
      ⟨[⟨1, 100, none, 5⟩], [⟨3, 7, [⟨1, ⟨none, none, none⟩, 2⟩]⟩], [], 10⟩
      ⟨some 7, [⟨true, true⟩]⟩ CheckoutStatus.cashOnDelivery true 7
      ⟨3, 7, [⟨1, ⟨none, none, none⟩, 2⟩]⟩ (by decide) rfl (by decide)).1
      ⟨"Failed to place an order for some reason, please try again.", 500⟩ rfl
  · exact ((placeMyOrder_clears_cart_exactly_once
      ⟨[⟨1, 100, none, 5⟩], [⟨3, 7, [⟨1, ⟨none, none, none⟩, 2⟩]⟩], [], 10⟩
      ⟨some 7, [⟨true, true⟩]⟩ CheckoutStatus.cashOnDelivery false 7
      ⟨3, 7, [⟨1, ⟨none, none, none⟩, 2⟩]⟩ (by decide) rfl (by decide)).2
      ⟨⟨⟨true, true⟩, "cash_on_delivery", 200⟩, ⟨⟨true, true⟩⟩, 7, "pending_payment",
        [⟨1, ⟨none, none, none⟩, 2⟩]⟩ rfl).2.1

/-- Counterexample to C4 as stated: with a stored `selling_price` of `0`
(set, but falsy in JS) and `price = 100`, a placed order for quantity 2 has
`paid_amount = 200` — the code fell back to `price` — while the claim's
"selling_price when set, otherwise price" total is `0`. -/
theorem placeMyOrder_claimed_total_counterexample :
    (placeMyOrder ⟨[⟨1, 100, some 0, 5⟩], [⟨3, 7, [⟨1, ⟨none, none, none⟩, 2⟩]⟩], [], 10⟩
        ⟨some 7, [⟨true, true⟩]⟩ CheckoutStatus.cashOnDelivery false).1 =
      .ok ⟨⟨⟨true, true⟩, "cash_on_delivery", 200⟩, ⟨⟨true, true⟩⟩, 7, "pending_payment",
        [⟨1, ⟨none, none, none⟩, 2⟩]⟩ ∧
    claimedTotal [⟨1, 100, some 0, 5⟩] [⟨1, ⟨none, none, none⟩, 2⟩] = 0 ∧
    (200 : Int) ≠ 0 :=
  ⟨rfl, rfl, by decide⟩

/-- C4 (amended): the billing `paid_amount` of every order placed by
`placeMyOrder` equals the sum over the cart's line items of (the product's
selling_price when set and nonzero, otherwise its price) × quantity,
computed from the product documents the cart references at order-creation
time. -/
theorem placeMyOrder_paid_amount_amended
    (db : DB) (user : UserDoc) (status : CheckoutStatus) (createFails : Bool)
    (uid : Nat) (cart : CartDoc) (order : OrderDoc)
    (huid : user.uid = some uid)
    (hcart : cartOf db uid = some cart)
    (hok : (placeMyOrder db user status createFails).1 = .ok order) :
    order.billing.paid_amount = amendedTotal db.products cart.products := by
  obtain ⟨billing, shipping, hne, hb, hs, hcf, hord⟩ :=
    placeMyOrder_ok_inv db user status createFails uid cart order huid hcart hok
  rw [hord]
  show totalAmount db.products cart.products = _
  exact totalAmount_eq_amendedTotal db.products cart.products

/-- Witness for the amended C4: the same falsy-selling-price store; the paid
amount is 200 and so is the amended total. -/
theorem placeMyOrder_paid_amount_amended_witness :
    (cartOf ⟨[⟨1, 100, some 0, 5⟩], [⟨3, 7, [⟨1, ⟨none, none, none⟩, 2⟩]⟩], [], 10⟩ 7 =
        some ⟨3, 7, [⟨1, ⟨none, none, none⟩, 2⟩]⟩ ∧
      (placeMyOrder ⟨[⟨1, 100, some 0, 5⟩], [⟨3, 7, [⟨1, ⟨none, none, none⟩, 2⟩]⟩], [], 10⟩
          ⟨some 7, [⟨true, true⟩]⟩ CheckoutStatus.stripeCheckout false).1 =
        .ok ⟨⟨⟨true, true⟩, "card", 200⟩, ⟨⟨true, true⟩⟩, 7, "processing",
          [⟨1, ⟨none, none, none⟩, 2⟩]⟩) ∧
    (⟨⟨⟨true, true⟩, "card", 200⟩, ⟨⟨true, true⟩⟩, 7, "processing",
        [⟨1, ⟨none, none, none⟩, 2⟩]⟩ : OrderDoc).billing.paid_amount =
      amendedTotal [⟨1, 100, some 0, 5⟩] [⟨1, ⟨none, none, none⟩, 2⟩] := by
  refine ⟨⟨by decide, rfl⟩, ?_⟩
  exact placeMyOrder_paid_amount_amended
    ⟨[⟨1, 100, some 0, 5⟩], [⟨3, 7, [⟨1, ⟨none, none, none⟩, 2⟩]⟩], [], 10⟩
    ⟨some 7, [⟨true, true⟩]⟩ CheckoutStatus.stripeCheckout false 7
    ⟨3, 7, [⟨1, ⟨none, none, none⟩, 2⟩]⟩
    ⟨⟨⟨true, true⟩, "card", 200⟩, ⟨⟨true, true⟩⟩, 7, "processing",
      [⟨1, ⟨none, none, none⟩, 2⟩]⟩ rfl (by decide) rfl

/-- C9, observed behavior at a failing input: `deleteCart` does find and
delete the cart, but its "reclaim the stock" update is issued with the
misspelled keys `_id4` / `$in4c` / `ne4w` (for `_id` / `$inc` / `new`), so
the store rejects the update document (`Unknown modifier: $in4c`): the
request errors instead of answering 204, and the reserved quantity (3) is
never added back to the product's stock, which stays at 10. -/
theorem deleteCart_reclaim_is_broken :
    deleteCart ⟨[⟨5, 100, none, 10⟩], [⟨1, 7, [⟨5, ⟨none, none, none⟩, 3⟩]⟩], [], 2⟩ 1 =
      (.error ⟨"Unknown modifier: $in4c", 500⟩, ⟨[⟨5, 100, none, 10⟩], [], [], 2⟩) ∧
    stockD (deleteCart ⟨[⟨5, 100, none, 10⟩],
        [⟨1, 7, [⟨5, ⟨none, none, none⟩, 3⟩]⟩], [], 2⟩ 1).2 5 = 10 :=
  ⟨rfl, rfl⟩
